import Mathlib

/-!
Verification development for the EcoScale building-energy-management core:
the entity-grouped feature builder (`src/features/processor.py`) and the
residual-based anomaly detection engine (`src/models/detect_anomalies.py`).

Numbers are modelled as exact rationals (`ℚ`); the square root appearing in
the per-entity standard deviation, and the trigonometric functions of the
cyclical time encoding, live in `ℝ`.
-/

/-! ### Data model of the detection engine (`detect_anomalies.py`) -/

/-- One row of the feature table handed to the detection engine: a reading
together with the model's prediction (`expected_reading`, produced by
`model.predict`). -/
structure Row where
  building_id : String
  timestamp : ℕ
  meter_reading : ℚ
  expected_reading : ℚ
deriving DecidableEq

/-- The fixed unit rate of `detect_anomalies.py`: `COST_PER_KWH = 0.14`. -/
def COST_PER_KWH : ℚ := 14 / 100

/-- The residual `df['deviation'] = df['meter_reading'] - df['expected_reading']`. -/
def deviation (r : Row) : ℚ := r.meter_reading - r.expected_reading

/-- The deviations of one building's rows, in table order:
the group `df.groupby('building_id')['deviation']` selects. -/
def entityDevs (df : List Row) (b : String) : List ℚ :=
  (df.filter (fun r => r.building_id == b)).map deviation

/-- The square of pandas `Series.std()` (sample variance, `ddof = 1`):
`none` when fewer than two samples exist (pandas yields `NaN` there).
`groupby('building_id')['deviation'].transform('std')` is the square root
of this value, broadcast to every row of the group. -/
def std_error_sq (xs : List ℚ) : Option ℚ :=
  if xs.length < 2 then none
  else
    let n : ℚ := xs.length
    let m : ℚ := xs.sum / n
    some ((xs.map (fun x => (x - m) ^ 2)).sum / (n - 1))

/-- The flag `df['is_anomaly'] = df['deviation'] > (2 * df['std_error'])` where
`std_error` is the per-building sample standard deviation of the
deviations.  When `std_error` is `NaN` (fewer than two rows in the group)
the pandas comparison is `False`, modelled by the `none` branch. -/
def is_anomaly (df : List Row) (r : Row) : Prop :=
  match std_error_sq (entityDevs df r.building_id) with
  | none => False
  | some v => 2 * Real.sqrt (v : ℝ) < ((deviation r : ℚ) : ℝ)

/-- Squared characterisation of `2·√w < d` over ℝ, used to decide the
anomaly predicate without evaluating the square root. -/
lemma two_sqrt_lt_iff (w d : ℝ) :
    2 * Real.sqrt w < d ↔ 0 < d ∧ 4 * max w 0 < d ^ 2 := by
  rcases le_or_lt w 0 with hw | hw
  · have hs : Real.sqrt w = 0 := Real.sqrt_eq_zero'.mpr hw
    rw [hs, max_eq_right hw]
    constructor
    · intro h
      have hd : 0 < d := by linarith
      exact ⟨hd, by nlinarith⟩
    · rintro ⟨hd, -⟩
      linarith
  · have hmax : max w 0 = w := max_eq_left hw.le
    have h4 : Real.sqrt (4 * w) = 2 * Real.sqrt w := by
      rw [show (4 : ℝ) * w = 2 ^ 2 * w by ring, Real.sqrt_mul (by positivity),
        Real.sqrt_sq (by norm_num)]
    rw [hmax]
    constructor
    · intro h
      have hd : 0 < d := lt_of_le_of_lt (by positivity) h
      refine ⟨hd, ?_⟩
      have hlt : Real.sqrt (4 * w) < d := by rw [h4]; exact h
      exact (Real.sqrt_lt' hd).mp hlt
    · rintro ⟨hd, h⟩
      have hlt : Real.sqrt (4 * w) < d := (Real.sqrt_lt' hd).mpr h
      rw [h4] at hlt
      exact hlt

instance decIsAnomaly (df : List Row) (r : Row) : Decidable (is_anomaly df r) :=
  match h : std_error_sq (entityDevs df r.building_id) with
  | none => isFalse (by simp [is_anomaly, h])
  | some v =>
      decidable_of_iff (0 < deviation r ∧ 4 * max v 0 < (deviation r) ^ 2)
        (by
          simp only [is_anomaly, h]
          rw [two_sqrt_lt_iff (v : ℝ) ((deviation r : ℚ) : ℝ)]
          exact_mod_cast Iff.rfl)

/-- The filtered table `anomalies = df[df['is_anomaly'] & (df['deviation'] > 0)]`. -/
def anomalies (df : List Row) : List Row :=
  df.filter (fun r => decide (is_anomaly df r) && decide (0 < deviation r))

/-- A saved record: `wasted_kwh = deviation`,
`wasted_cost = wasted_kwh * COST_PER_KWH`. -/
structure AnomalyRecord where
  timestamp : ℕ
  building_id : String
  meter_reading : ℚ
  expected_reading : ℚ
  wasted_kwh : ℚ
  wasted_cost : ℚ
deriving DecidableEq

/-- Builds the output record of one flagged row. -/
def mkRecord (r : Row) : AnomalyRecord :=
  { timestamp := r.timestamp
    building_id := r.building_id
    meter_reading := r.meter_reading
    expected_reading := r.expected_reading
    wasted_kwh := deviation r
    wasted_cost := deviation r * COST_PER_KWH }

/-- The sorted records `anomalies.sort_values('wasted_cost', ascending=False)`. -/
def sorted_by_cost (df : List Row) : List AnomalyRecord :=
  ((anomalies df).map mkRecord).mergeSort
    (fun a b => decide (b.wasted_cost ≤ a.wasted_cost))

/-- The saved report, `sort_values('wasted_cost', ascending=False).head(5000)`. -/
def top_anomalies (df : List Row) : List AnomalyRecord :=
  (sorted_by_cost df).take 5000

/-! ### Entity-grouped feature builder (`processor.py`) -/

/-- One input row of the merged table: `entity_id` is `building_id`,
`measured_value` is `meter_reading`. -/
structure RawReading where
  building_id : String
  timestamp : ℕ
  meter_reading : ℚ
deriving DecidableEq

/-- The comparison used by `df.sort_values(['building_id', 'timestamp'])`:
ascending lexicographic order on (building, timestamp). -/
def readingLE (a b : RawReading) : Bool :=
  decide (a.building_id.data < b.building_id.data ∨
    (a.building_id = b.building_id ∧ a.timestamp ≤ b.timestamp))

/-- The sorted table `df.sort_values(['building_id', 'timestamp'])`. -/
def sort_values (df : List RawReading) : List RawReading :=
  df.mergeSort readingLE

/-- One building's block of the sorted table: the rows
`groupby('building_id')` hands to each shift/rolling computation. -/
def entitySeq (df : List RawReading) (b : String) : List RawReading :=
  (sort_values df).filter (fun r => r.building_id == b)

/-- The distinct building ids of the sorted table. -/
def entityIds (df : List RawReading) : List String :=
  ((sort_values df).map (fun r => r.building_id)).dedup

/-- The shift `groupby('building_id')['meter_reading'].shift(H)` at in-group position
`t`: the group's own value `H` rows earlier, `NaN` (`none`) for the first
`H` rows of the group. -/
def lagAt (H : ℕ) (vals : List ℚ) (t : ℕ) : Option ℚ :=
  if t < H then none else vals[t - H]?

/-- The statistic `x.rolling(window=W).mean()` at in-group position `t`: the mean of the
trailing `W` values (positions `t-W+1 .. t`), `NaN` (`none`) until `W`
observations exist. -/
def rollingMeanAt (W : ℕ) (vals : List ℚ) (t : ℕ) : Option ℚ :=
  if t + 1 < W then none
  else some (((vals.take (t + 1)).drop (t + 1 - W)).sum / (W : ℚ))

/-- A row of the feature table produced by `generate_features`; the three
derived columns are `Option`-valued before `dropna`. -/
structure FeatRow where
  building_id : String
  timestamp : ℕ
  meter_reading : ℚ
  lag_1h : Option ℚ
  lag_24h : Option ℚ
  rolling_mean_6h : Option ℚ
deriving DecidableEq

/-- The feature rows of one building's block, in time order: lag 1, lag 24
and the 6-hour rolling mean, each computed from the block's own values. -/
def buildEntityFeatures (rows : List RawReading) : List FeatRow :=
  rows.mapIdx (fun t r =>
    { building_id := r.building_id
      timestamp := r.timestamp
      meter_reading := r.meter_reading
      lag_1h := lagAt 1 (rows.map (fun x => x.meter_reading)) t
      lag_24h := lagAt 24 (rows.map (fun x => x.meter_reading)) t
      rolling_mean_6h := rollingMeanAt 6 (rows.map (fun x => x.meter_reading)) t })

/-- The full feature table before `dropna`: the sorted table with the
grouped lag/rolling columns, one block per building. -/
def generateFeatureRows (df : List RawReading) : List FeatRow :=
  (entityIds df).flatMap (fun b => buildEntityFeatures (entitySeq df b))

/-- A row survives `df.dropna()` exactly when all three derived columns
are present. -/
def hasAllFeatures (r : FeatRow) : Bool :=
  r.lag_1h.isSome && r.lag_24h.isSome && r.rolling_mean_6h.isSome

/-- The cleaning step `df.dropna()`. -/
def dropna (l : List FeatRow) : List FeatRow :=
  l.filter hasAllFeatures

/-- The feature table `generate_features` saves. -/
def generate_features_table (df : List RawReading) : List FeatRow :=
  dropna (generateFeatureRows df)

/-! ### Error taxonomy, input schema and the oracle boundary -/

/-- The error taxonomy of the pipeline: a required input column absent
(pandas `KeyError` on column access, the spec's `MissingColumnError`), or
the model's recorded feature set not contained in the table
(`KeyError` on `df[model_features]`, the spec's `FeatureSchemaMismatch`). -/
inductive PipelineError where
  | missingColumn : String → PipelineError
  | featureSchemaMismatch : PipelineError
deriving DecidableEq

/-- The raw merged table as loaded: its column names together with the
parsed rows (meaningful only when the required columns are present). -/
structure RawTable where
  cols : List String
  rows : List RawReading

/-- Accessing column `c` of the table: pandas raises `KeyError` when the
column is absent. -/
def requireColumn (t : RawTable) (c : String) : Except PipelineError Unit :=
  if c ∈ t.cols then .ok () else .error (.missingColumn c)

/-- The run of `generate_features`: it touches `timestamp` (time features),
`building_id` (sort and groupby) and `meter_reading` (lags/rolling), in
that order, and only then produces the feature table. -/
def generate_features (t : RawTable) : Except PipelineError (List FeatRow) := do
  _ ← requireColumn t "timestamp"
  _ ← requireColumn t "building_id"
  _ ← requireColumn t "meter_reading"
  pure (generate_features_table t.rows)

/-- The feature table handed to the detection run, abstracted at the
oracle boundary: its columns, its row count and the per-row value of each
column. -/
structure FeatTable where
  cols : List String
  nrows : ℕ
  val : ℕ → String → ℚ

/-- The trained model as the detection engine sees it: its recorded
`feature_name_` list and its (opaque) per-row prediction function. -/
structure Oracle where
  feature_name_ : List String
  predictRow : List ℚ → ℚ

/-- The selection `X = df[model_features]`: exactly the recorded feature names,
in the model's recorded order; pandas raises `KeyError`
(`FeatureSchemaMismatch`) when any recorded name is absent from the
table. -/
def selectFeatures (t : FeatTable) (names : List String) :
    Except PipelineError (List (List ℚ)) :=
  if names.all (fun c => t.cols.contains c) then
    .ok ((List.range t.nrows).map (fun i => names.map (fun c => t.val i c)))
  else .error .featureSchemaMismatch

/-- The prediction step `df['expected_reading'] = model.predict(X)` with
`X = df[model_features]`. -/
def predictExpected (m : Oracle) (t : FeatTable) :
    Except PipelineError (List ℚ) :=
  (selectFeatures t m.feature_name_).map (fun X => X.map m.predictRow)

/-! ### Detection-engine helper lemmas -/

/-- Membership in the filtered anomaly table, unfolded to the two guard
conditions of the source. -/
lemma mem_anomalies {df : List Row} {r : Row} :
    r ∈ anomalies df ↔ r ∈ df ∧ is_anomaly df r ∧ 0 < deviation r := by
  simp [anomalies, List.mem_filter, Bool.and_eq_true, decide_eq_true_eq, and_assoc]

/-- The concrete scenario table: one building `B1`, five hourly readings
`[10, 10, 10, 10, 50]`, the oracle predicting `10` everywhere. -/
def df_B1 : List Row :=
  [⟨"B1", 0, 10, 10⟩, ⟨"B1", 1, 10, 10⟩, ⟨"B1", 2, 10, 10⟩,
   ⟨"B1", 3, 10, 10⟩, ⟨"B1", 4, 50, 10⟩]

lemma entityDevs_df_B1 : entityDevs df_B1 "B1" = [0, 0, 0, 0, 40] := by
  norm_num [entityDevs, df_B1, deviation, List.filter]

lemma std_error_sq_df_B1 : std_error_sq (entityDevs df_B1 "B1") = some 320 := by
  rw [entityDevs_df_B1]; norm_num [std_error_sq]

lemma is_anomaly_spike : is_anomaly df_B1 ⟨"B1", 4, 50, 10⟩ := by
  simp only [is_anomaly, std_error_sq_df_B1]
  rw [two_sqrt_lt_iff]
  norm_num [deviation]

lemma anomalies_df_B1 : anomalies df_B1 = [⟨"B1", 4, 50, 10⟩] := by
  have e0 : ¬ (0 : ℚ) < deviation ⟨"B1", 0, 10, 10⟩ := by norm_num [deviation]
  have e1 : ¬ (0 : ℚ) < deviation ⟨"B1", 1, 10, 10⟩ := by norm_num [deviation]
  have e2 : ¬ (0 : ℚ) < deviation ⟨"B1", 2, 10, 10⟩ := by norm_num [deviation]
  have e3 : ¬ (0 : ℚ) < deviation ⟨"B1", 3, 10, 10⟩ := by norm_num [deviation]
  have e4 : (0 : ℚ) < deviation ⟨"B1", 4, 50, 10⟩ := by norm_num [deviation]
  have h50 : decide (is_anomaly df_B1 ⟨"B1", 4, 50, 10⟩) = true :=
    decide_eq_true is_anomaly_spike
  simp only [df_B1] at h50
  simp [anomalies, df_B1, List.filter, e0, e1, e2, e3, e4, h50]

lemma top_df_B1 : top_anomalies df_B1 = [⟨4, "B1", 50, 10, 40, 40 * COST_PER_KWH⟩] := by
  have hrec : (anomalies df_B1).map mkRecord
      = [⟨4, "B1", 50, 10, 40, 40 * COST_PER_KWH⟩] := by
    rw [anomalies_df_B1]
    simp only [List.map_cons, List.map_nil, mkRecord]
    norm_num [deviation, COST_PER_KWH]
  simp [top_anomalies, sorted_by_cost, hrec, List.mergeSort_singleton]

/-! ### Claims about the detection engine -/

/-- C1: a reading is flagged exactly when its deviation exceeds twice its
building's residual standard deviation AND the deviation is positive;
every saved record has positive wasted energy, and a reading below
expectation is never flagged. -/
theorem anomaly_flag_exactness (df : List Row) (r : Row) :
    (r ∈ anomalies df ↔ r ∈ df ∧ is_anomaly df r ∧ 0 < deviation r)
    ∧ (∀ rec ∈ top_anomalies df, 0 < rec.wasted_kwh)
    ∧ (deviation r ≤ 0 → r ∉ anomalies df) := by
  refine ⟨mem_anomalies, ?_, ?_⟩
  · intro rec hrec
    have h1 : rec ∈ sorted_by_cost df := (List.take_sublist _ _).subset hrec
    have h2 : rec ∈ (anomalies df).map mkRecord := List.mem_mergeSort.mp h1
    obtain ⟨r', hr', hr'eq⟩ := List.mem_map.mp h2
    have hpos := (mem_anomalies.mp hr').2.2
    rw [← hr'eq]
    simpa [mkRecord] using hpos
  · intro hle hmem
    have hpos := (mem_anomalies.mp hmem).2.2
    linarith

/-- C1 witness: in the `B1` scenario the zero-deviation reading is not
flagged, and the one saved record has positive wasted energy. -/
theorem anomaly_flag_exactness_witness :
    deviation (⟨"B1", 0, 10, 10⟩ : Row) ≤ 0
    ∧ (⟨"B1", 0, 10, 10⟩ : Row) ∉ anomalies df_B1
    ∧ (0 : ℚ) < (⟨4, "B1", 50, 10, 40, 40 * COST_PER_KWH⟩ : AnomalyRecord).wasted_kwh := by
  have hdev : deviation (⟨"B1", 0, 10, 10⟩ : Row) ≤ 0 := by norm_num [deviation]
  refine ⟨hdev, (anomaly_flag_exactness df_B1 ⟨"B1", 0, 10, 10⟩).2.2 hdev, ?_⟩
  exact (anomaly_flag_exactness df_B1 ⟨"B1", 0, 10, 10⟩).2.1 _ (by simp [top_df_B1])

/-- C3: on the `B1` scenario the deviations are `[0,0,0,0,40]`, the sample
standard deviation of the residuals is `√320 ≈ 17.9` (threshold
`2·√320 ≈ 35.8`), exactly the reading `50` is flagged, and its cost is
`40 · COST_PER_KWH`. -/
theorem scenario_spike_B1 :
    df_B1.map deviation = [0, 0, 0, 0, 40]
    ∧ std_error_sq (entityDevs df_B1 "B1") = some 320
    ∧ ((17885 / 1000 : ℝ) < Real.sqrt 320 ∧ Real.sqrt 320 < (179 / 10 : ℝ))
    ∧ ((3577 / 100 : ℝ) < 2 * Real.sqrt 320 ∧ 2 * Real.sqrt 320 < (358 / 10 : ℝ))
    ∧ (anomalies df_B1).map (fun r => r.meter_reading) = [50]
    ∧ (top_anomalies df_B1).map (fun rec => rec.wasted_cost) = [40 * COST_PER_KWH] := by
  have hlo : (17885 / 1000 : ℝ) < Real.sqrt 320 := by
    rw [Real.lt_sqrt (by norm_num)]; norm_num
  have hhi : Real.sqrt 320 < (179 / 10 : ℝ) := by
    rw [Real.sqrt_lt' (by norm_num)]; norm_num
  refine ⟨by norm_num [df_B1, deviation], std_error_sq_df_B1, ⟨hlo, hhi⟩,
    ⟨by linarith, by linarith⟩, ?_, ?_⟩
  · rw [anomalies_df_B1]; rfl
  · rw [top_df_B1]; rfl

/-- C5: the report holds at most 5000 records, is sorted by wasted cost
descending, is a truncation of a sorted permutation of all flagged
records, and every record it keeps costs at least as much as every record
it drops. -/
theorem report_cap_and_ranking (df : List Row) :
    (top_anomalies df).length ≤ 5000
    ∧ List.Pairwise (fun a b : AnomalyRecord => b.wasted_cost ≤ a.wasted_cost)
        (top_anomalies df)
    ∧ (sorted_by_cost df).Perm ((anomalies df).map mkRecord)
    ∧ ((sorted_by_cost df).drop 5000).all
        (fun x => (top_anomalies df).all
          (fun y => decide (x.wasted_cost ≤ y.wasted_cost))) = true := by
  have hsorted0 : List.Pairwise
      (fun a b : AnomalyRecord => decide (b.wasted_cost ≤ a.wasted_cost) = true)
      (((anomalies df).map mkRecord).mergeSort
        (fun a b => decide (b.wasted_cost ≤ a.wasted_cost))) :=
    List.sorted_mergeSort
      (fun a b c hab hbc => by
        simp only [decide_eq_true_eq] at *
        exact le_trans hbc hab)
      (fun a b => by
        simp only [Bool.or_eq_true, decide_eq_true_eq]
        exact le_total b.wasted_cost a.wasted_cost)
      ((anomalies df).map mkRecord)
  have hsorted : List.Pairwise
      (fun a b : AnomalyRecord => b.wasted_cost ≤ a.wasted_cost) (sorted_by_cost df) :=
    List.Pairwise.imp (fun h => of_decide_eq_true h) hsorted0
  refine ⟨List.length_take_le _ _,
    List.Pairwise.sublist (List.take_sublist _ _) hsorted,
    List.mergeSort_perm _ _, ?_⟩
  have hsplit : (sorted_by_cost df).take 5000 ++ (sorted_by_cost df).drop 5000
      = sorted_by_cost df := List.take_append_drop 5000 (sorted_by_cost df)
  have hpw : List.Pairwise (fun a b : AnomalyRecord => b.wasted_cost ≤ a.wasted_cost)
      ((sorted_by_cost df).take 5000 ++ (sorted_by_cost df).drop 5000) := by
    rw [hsplit]; exact hsorted
  have hsep := (List.pairwise_append.mp hpw).2.2
  rw [List.all_eq_true]
  intro x hx
  rw [List.all_eq_true]
  intro y hy
  rw [decide_eq_true_eq]
  exact hsep y hy x hx

/-- C6: an all-zero-residual building is never flagged, a building with a
single reading (undefined sample deviation) is never flagged, and rows of
other buildings appended to the table change nothing for a reading whose
building they do not share. -/
theorem degenerate_entities (df others : List Row) (r : Row) :
    ((∀ x ∈ entityDevs df r.building_id, x = 0) → r ∉ anomalies df)
    ∧ ((entityDevs df r.building_id).length < 2 → r ∉ anomalies df)
    ∧ ((∀ e ∈ others, e.building_id ≠ r.building_id) →
        (r ∈ anomalies (df ++ others) ↔ r ∈ anomalies df)) := by
  refine ⟨?_, ?_, ?_⟩
  · intro hall hmem
    obtain ⟨hdf, -, hpos⟩ := mem_anomalies.mp hmem
    have hdev : deviation r ∈ entityDevs df r.building_id := by
      simp only [entityDevs, List.mem_map, List.mem_filter]
      exact ⟨r, ⟨hdf, by simp⟩, rfl⟩
    rw [hall _ hdev] at hpos
    exact lt_irrefl 0 hpos
  · intro hlen hmem
    obtain ⟨-, hA, -⟩ := mem_anomalies.mp hmem
    have hnone : std_error_sq (entityDevs df r.building_id) = none := by
      unfold std_error_sq
      rw [if_pos hlen]
    simp [is_anomaly, hnone] at hA
  · intro hothers
    have hdevs : entityDevs (df ++ others) r.building_id
        = entityDevs df r.building_id := by
      unfold entityDevs
      rw [List.filter_append]
      have hnil : others.filter (fun x => x.building_id == r.building_id) = [] := by
        rw [List.filter_eq_nil_iff]
        intro e he
        simpa using hothers e he
      rw [hnil, List.append_nil]
    have hiff : is_anomaly (df ++ others) r ↔ is_anomaly df r := by
      simp only [is_anomaly]
      rw [hdevs]
    have hmemiff : (r ∈ df ++ others) ↔ r ∈ df := by
      rw [List.mem_append]
      constructor
      · rintro (h | h)
        · exact h
        · exact absurd rfl (hothers r h)
      · exact Or.inl
    rw [mem_anomalies, mem_anomalies, hiff, hmemiff]

/-- C6 witness: concrete degenerate buildings — `B1` with residuals
`[0, 0]`, `C1` with a single reading — are not flagged, and appending the
`C1` row leaves `B1`'s classification unchanged. -/
theorem degenerate_entities_witness :
    (⟨"B1", 0, 10, 10⟩ : Row) ∉ anomalies
        [⟨"B1", 0, 10, 10⟩, ⟨"B1", 1, 10, 10⟩, ⟨"C1", 0, 15, 10⟩]
    ∧ (⟨"C1", 0, 15, 10⟩ : Row) ∉ anomalies
        [⟨"B1", 0, 10, 10⟩, ⟨"B1", 1, 10, 10⟩, ⟨"C1", 0, 15, 10⟩]
    ∧ ((⟨"B1", 0, 10, 10⟩ : Row) ∈ anomalies
          ([⟨"B1", 0, 10, 10⟩, ⟨"B1", 1, 10, 10⟩] ++ [⟨"C1", 0, 15, 10⟩])
        ↔ (⟨"B1", 0, 10, 10⟩ : Row) ∈ anomalies [⟨"B1", 0, 10, 10⟩, ⟨"B1", 1, 10, 10⟩]) := by
  have b1 : (("B1" : String) == "B1") = true := by decide
  have b2 : (("C1" : String) == "B1") = false := by decide
  have b3 : (("B1" : String) == "C1") = false := by decide
  have b4 : (("C1" : String) == "C1") = true := by decide
  have hB : entityDevs
      [⟨"B1", 0, 10, 10⟩, ⟨"B1", 1, 10, 10⟩, ⟨"C1", 0, 15, 10⟩] "B1" = [0, 0] := by
    norm_num [entityDevs, deviation, List.filter, b1, b2]
  have hC : entityDevs
      [⟨"B1", 0, 10, 10⟩, ⟨"B1", 1, 10, 10⟩, ⟨"C1", 0, 15, 10⟩] "C1" = [5] := by
    norm_num [entityDevs, deviation, List.filter, b3, b4]
  refine ⟨(degenerate_entities _ [] ⟨"B1", 0, 10, 10⟩).1 ?_,
    (degenerate_entities _ [] ⟨"C1", 0, 15, 10⟩).2.1 ?_,
    (degenerate_entities _ [⟨"C1", 0, 15, 10⟩] ⟨"B1", 0, 10, 10⟩).2.2 ?_⟩
  · intro x hx
    rw [hB] at hx
    simpa using hx
  · rw [hC]
    norm_num
  · intro e he
    simp only [List.mem_singleton] at he
    subst he
    simp

/-! ### Feature-builder helper lemmas -/

/-- Every feature row built from a block carries the building id of one of
the block's own rows. -/
lemma building_of_mem_buildEntityFeatures {rows : List RawReading} {x : FeatRow}
    (hx : x ∈ buildEntityFeatures rows) : ∃ r ∈ rows, x.building_id = r.building_id := by
  rw [buildEntityFeatures, List.mem_mapIdx] at hx
  obtain ⟨i, hi, hix⟩ := hx
  exact ⟨rows[i], List.getElem_mem hi, by rw [← hix]⟩

/-- Every row of a building's block carries that building's id. -/
lemma building_of_mem_entitySeq {df : List RawReading} {b : String} {r : RawReading}
    (hr : r ∈ entitySeq df b) : r.building_id = b := by
  rw [entitySeq, List.mem_filter] at hr
  simpa using hr.2

/-- Blocks of buildings other than `b` contribute nothing to the rows of
building `b`. -/
lemma flatMap_filter_nil {ids : List String} {F : String → List FeatRow} {b : String}
    (hF : ∀ a, ∀ x ∈ F a, x.building_id = a) (hb : b ∉ ids) :
    ids.flatMap (fun a => (F a).filter (fun x => x.building_id == b)) = [] := by
  induction ids with
  | nil => rfl
  | cons a ids ih =>
    rw [List.flatMap_cons]
    have hab : a ≠ b := by
      intro h
      exact hb (h ▸ List.mem_cons_self a ids)
    have h1 : (F a).filter (fun x => x.building_id == b) = [] := by
      rw [List.filter_eq_nil_iff]
      intro x hx
      simp [hF a x hx, hab]
    rw [h1, List.nil_append]
    exact ih (fun h => hb (List.mem_cons_of_mem a h))

/-- Filtering the concatenated per-building blocks down to building `b`
recovers exactly `b`'s own block. -/
lemma flatMap_filter_single {ids : List String} {F : String → List FeatRow} {b : String}
    (hF : ∀ a, ∀ x ∈ F a, x.building_id = a) (hnd : ids.Nodup) (hb : b ∈ ids) :
    ids.flatMap (fun a => (F a).filter (fun x => x.building_id == b)) = F b := by
  induction ids with
  | nil => cases hb
  | cons a ids ih =>
    rw [List.flatMap_cons]
    rcases List.mem_cons.mp hb with hba | hbids
    · subst hba
      have h1 : (F b).filter (fun x => x.building_id == b) = F b := by
        rw [List.filter_eq_self]
        intro x hx
        simp [hF b x hx]
      have h2 : ids.flatMap (fun a => (F a).filter (fun x => x.building_id == b)) = [] :=
        flatMap_filter_nil hF (List.nodup_cons.mp hnd).1
      rw [h1, h2, List.append_nil]
    · have hab : a ≠ b := by
        intro h
        exact (List.nodup_cons.mp hnd).1 (h ▸ hbids)
      have h1 : (F a).filter (fun x => x.building_id == b) = [] := by
        rw [List.filter_eq_nil_iff]
        intro x hx
        simp [hF a x hx, hab]
      rw [h1, List.nil_append]
      exact ih (List.nodup_cons.mp hnd).2 hbids

/-- Restricting the full (pre-`dropna`) feature table to building `b`
yields precisely the features built from `b`'s own block. -/
lemma filter_generateFeatureRows (df : List RawReading) (b : String) :
    (generateFeatureRows df).filter (fun x => x.building_id == b)
      = buildEntityFeatures (entitySeq df b) := by
  rw [generateFeatureRows, List.filter_flatMap]
  have hF : ∀ a, ∀ x ∈ buildEntityFeatures (entitySeq df a), x.building_id = a := by
    intro a x hx
    obtain ⟨r, hr, hxr⟩ := building_of_mem_buildEntityFeatures hx
    rw [hxr]
    exact building_of_mem_entitySeq hr
  by_cases hb : b ∈ entityIds df
  · exact flatMap_filter_single hF (List.nodup_dedup _) hb
  · have h1 : entitySeq df b = [] := by
      rw [entitySeq, List.filter_eq_nil_iff]
      intro r hr hrb
      apply hb
      rw [entityIds, List.mem_dedup, List.mem_map]
      exact ⟨r, hr, by simpa using hrb⟩
    rw [flatMap_filter_nil hF hb, h1]
    rfl

/-- Character-list comparison of two ids agrees with the string order. -/
lemma data_lt_iff (s t : String) : s.data < t.data ↔ s < t := by
  rw [String.lt_iff_toList_lt]
  rfl

/-- The sorted table is ordered by the lexicographic (building, timestamp)
comparison. -/
lemma pairwise_sort_values (df : List RawReading) :
    List.Pairwise (fun a c : RawReading => readingLE a c = true) (sort_values df) :=
  List.sorted_mergeSort
    (fun a b c hab hbc => by
      simp only [readingLE, decide_eq_true_eq, data_lt_iff] at *
      rcases hab with h1 | ⟨h1, h1t⟩ <;> rcases hbc with h2 | ⟨h2, h2t⟩
      · exact Or.inl (h1.trans h2)
      · exact Or.inl (h2 ▸ h1)
      · exact Or.inl (h1 ▸ h2)
      · exact Or.inr ⟨h1.trans h2, le_trans h1t h2t⟩)
    (fun a b => by
      simp only [Bool.or_eq_true, readingLE, decide_eq_true_eq, data_lt_iff]
      rcases lt_trichotomy a.building_id b.building_id with h | h | h
      · exact Or.inl (Or.inl h)
      · rcases le_total a.timestamp b.timestamp with ht | ht
        · exact Or.inl (Or.inr ⟨h, ht⟩)
        · exact Or.inr (Or.inr ⟨h.symm, ht⟩)
      · exact Or.inr (Or.inl h))
    df

/-- Each building's block is in ascending timestamp order. -/
lemma pairwise_timestamp_entitySeq (df : List RawReading) (b : String) :
    List.Pairwise (fun a c : RawReading => a.timestamp ≤ c.timestamp) (entitySeq df b) := by
  have hseq : List.Pairwise (fun a c : RawReading => readingLE a c = true)
      (entitySeq df b) :=
    List.Pairwise.sublist (List.filter_sublist _) (pairwise_sort_values df)
  refine List.Pairwise.imp_of_mem ?_ hseq
  intro a c ha hc hle
  have hab := building_of_mem_entitySeq ha
  have hcb := building_of_mem_entitySeq hc
  simp only [readingLE, decide_eq_true_eq, data_lt_iff] at hle
  rcases hle with h | ⟨-, ht⟩
  · rw [hab, hcb] at h
    exact absurd h (lt_irrefl b)
  · exact ht

/-- C2: within each building the lag columns are sourced from the
building's own time-ordered block — `lag_H` at in-block position `t` is
that block's value at position `t − H` and is absent for `t < H` (such a
row is dropped by `dropna`), never a value from a different building. -/
theorem lag_entity_scoping (df : List RawReading) (b : String) (t : ℕ) (x : FeatRow) :
    List.Pairwise (fun a c : RawReading => a.timestamp ≤ c.timestamp) (entitySeq df b)
    ∧ ((generateFeatureRows df).filter (fun y => y.building_id == b)).length
        = (entitySeq df b).length
    ∧ (((generateFeatureRows df).filter (fun y => y.building_id == b))[t]? = some x →
        (x.lag_1h = if t < 1 then none
          else (entitySeq df b)[t - 1]?.map (fun r => r.meter_reading))
        ∧ (x.lag_24h = if t < 24 then none
          else (entitySeq df b)[t - 24]?.map (fun r => r.meter_reading))
        ∧ (x.lag_24h = none → x ∉ generate_features_table df)) := by
  refine ⟨pairwise_timestamp_entitySeq df b, ?_, ?_⟩
  · rw [filter_generateFeatureRows, buildEntityFeatures, List.length_mapIdx]
  · intro hx
    rw [filter_generateFeatureRows, buildEntityFeatures, List.getElem?_mapIdx] at hx
    cases hseq : (entitySeq df b)[t]? with
    | none => rw [hseq] at hx; cases hx
    | some r =>
      rw [hseq] at hx
      have hxr := (Option.some_inj.mp hx).symm
      refine ⟨?_, ?_, ?_⟩
      · rw [hxr]
        show lagAt 1 ((entitySeq df b).map (fun x => x.meter_reading)) t = _
        rw [lagAt]
        by_cases h1 : t < 1
        · rw [if_pos h1, if_pos h1]
        · rw [if_neg h1, if_neg h1, List.getElem?_map]
      · rw [hxr]
        show lagAt 24 ((entitySeq df b).map (fun x => x.meter_reading)) t = _
        rw [lagAt]
        by_cases h24 : t < 24
        · rw [if_pos h24, if_pos h24]
        · rw [if_neg h24, if_neg h24, List.getElem?_map]
      · intro h24 hmem
        rw [generate_features_table, dropna, List.mem_filter] at hmem
        have hall := hmem.2
        simp [hasAllFeatures, h24] at hall

/-- The concrete two-building table used as witness input. -/
def df_w : List RawReading := [⟨"A", 0, 7⟩, ⟨"A", 1, 8⟩, ⟨"B", 0, 5⟩, ⟨"B", 1, 6⟩]

lemma sort_df_w : sort_values df_w = df_w :=
  List.mergeSort_of_sorted (by decide)

lemma seq_df_w_B : entitySeq df_w "B" = [⟨"B", 0, 5⟩, ⟨"B", 1, 6⟩] := by
  rw [entitySeq, sort_df_w]
  decide

/-- C2 witness: building `B`'s second row takes its one-step lag from
`B`'s own first value (`5`), not from building `A`'s last value, and its
24-step lag is absent. -/
theorem lag_entity_scoping_witness :
    (⟨"B", 1, 6, some 5, none, none⟩ : FeatRow).lag_1h
        = (entitySeq df_w "B")[0]?.map (fun r => r.meter_reading)
    ∧ (⟨"B", 1, 6, some 5, none, none⟩ : FeatRow).lag_24h = none := by
  have h := (lag_entity_scoping df_w "B" 1 ⟨"B", 1, 6, some 5, none, none⟩).2.2
    (by rw [filter_generateFeatureRows, seq_df_w_B]; decide)
  refine ⟨?_, ?_⟩
  · have h1 := h.1
    simpa using h1
  · exact rfl

/-- A lag value is present exactly from in-block position `H` onwards. -/
lemma isSome_lagAt {H t : ℕ} {vals : List ℚ} (ht : t < vals.length) :
    (lagAt H vals t).isSome = decide (H ≤ t) := by
  rw [lagAt]
  by_cases h : t < H
  · have hd : decide (H ≤ t) = false := decide_eq_false (Nat.not_le.mpr h)
    rw [if_pos h, hd]
    rfl
  · have hle : H ≤ t := Nat.not_lt.mp h
    have hlt : t - H < vals.length := lt_of_le_of_lt (Nat.sub_le t H) ht
    rw [if_neg h, List.getElem?_eq_getElem hlt]
    simp [hle]

/-- A rolling-mean value is present exactly once `W` observations exist. -/
lemma isSome_rollingMeanAt {W t : ℕ} {vals : List ℚ} :
    (rollingMeanAt W vals t).isSome = decide (W ≤ t + 1) := by
  rw [rollingMeanAt]
  by_cases h : t + 1 < W
  · have hd : decide (W ≤ t + 1) = false := decide_eq_false (Nat.not_le.mpr h)
    rw [if_pos h, hd]
    rfl
  · have hle : W ≤ t + 1 := Nat.not_lt.mp h
    rw [if_neg h]
    simp [hle]

/-- Filtering an index-mapped list by a predicate that holds exactly from
index `k` onwards is the same as dropping the first `k` elements. -/
lemma filter_mapIdx_eq_drop {α β : Type} (p : β → Bool) :
    ∀ (l : List α) (f : ℕ → α → β) (k : ℕ),
      (∀ i (hi : i < l.length), p (f i l[i]) = decide (k ≤ i)) →
      (List.mapIdx f l).filter p = (List.mapIdx f l).drop k := by
  intro l
  induction l with
  | nil => intro f k h; simp
  | cons a l ih =>
    intro f k h
    rw [List.mapIdx_cons]
    cases k with
    | zero =>
      rw [List.drop_zero, List.filter_eq_self]
      intro x hx
      rcases List.mem_cons.mp hx with hx0 | hxl
      · rw [hx0]
        have h0 := h 0 (by simp)
        simpa using h0
      · rw [List.mem_mapIdx] at hxl
        obtain ⟨i, hi, hfi⟩ := hxl
        rw [← hfi]
        have hs := h (i + 1) (by simpa using Nat.succ_lt_succ hi)
        simpa using hs
    | succ k =>
      have h0 : p (f 0 a) = false := by
        have hs := h 0 (by simp)
        simpa using hs
      rw [List.filter_cons_of_neg (by simp [h0]), List.drop_succ_cons]
      refine ih (fun i => f (i + 1)) k (fun i hi => ?_)
      have hs := h (i + 1) (by simpa using Nat.succ_lt_succ hi)
      simpa [Nat.succ_le_succ_iff] using hs

/-- C4 (amended): `dropna` removes exactly the first 24 rows of every
building's block (the rows whose 24-step lag is undefined); every later
row is kept. -/
theorem dropna_drops_first_24 (df : List RawReading) (b : String) :
    (generate_features_table df).filter (fun x => x.building_id == b)
      = (buildEntityFeatures (entitySeq df b)).drop 24 := by
  rw [generate_features_table, dropna, List.filter_filter]
  rw [show (fun a => (a.building_id == b) && hasAllFeatures a)
      = (fun a : FeatRow => hasAllFeatures a && (a.building_id == b)) from
    funext fun a => Bool.and_comm _ _]
  rw [← List.filter_filter, filter_generateFeatureRows, buildEntityFeatures]
  refine filter_mapIdx_eq_drop hasAllFeatures (entitySeq df b) _ 24 (fun i hi => ?_)
  have hv : i < ((entitySeq df b).map (fun x => x.meter_reading)).length := by
    simpa using hi
  simp only [hasAllFeatures]
  rw [isSome_lagAt hv, isSome_lagAt hv, isSome_rollingMeanAt]
  by_cases h24 : 24 ≤ i
  · have d1 : decide (1 ≤ i) = true := decide_eq_true (by omega)
    have d2 : decide (24 ≤ i) = true := decide_eq_true h24
    have d3 : decide (6 ≤ i + 1) = true := decide_eq_true (by omega)
    rw [d1, d2, d3]
    rfl
  · have d2 : decide (24 ≤ i) = false := decide_eq_false h24
    rw [d2]
    simp

/-- The counterexample table: one building `A` with 25 hourly readings. -/
def dfA : List RawReading := (List.range 25).map (fun t => ⟨"A", t, 1⟩)

/-- C4 counterexample: on a 25-row single-building table the output keeps
only the row at in-block position 24 — the row at position 23 (which the
claim's `max(H, W) − 1 = 23` cutoff would retain) is dropped, because its
24-step lag is still undefined. -/
theorem drop_policy_counterexample :
    (generate_features_table dfA).map (fun r => r.timestamp) = [24]
    ∧ ¬ (∃ r ∈ generate_features_table dfA, r.timestamp = 23) := by
  have hsortA : sort_values dfA = dfA := List.mergeSort_of_sorted (by decide)
  constructor
  · simp only [generate_features_table, generateFeatureRows, entityIds, entitySeq, hsortA]
    decide
  · simp only [generate_features_table, generateFeatureRows, entityIds, entitySeq, hsortA]
    decide

/-! ### Cyclical time encoding (`encode_cyclical_time`) -/

/-- The column `col + '_sin'`: `np.sin(2 * np.pi * df[col] / max_val)`. -/
noncomputable def cyclical_sin (f P : ℝ) : ℝ := Real.sin (2 * Real.pi * f / P)

/-- The column `col + '_cos'`: `np.cos(2 * np.pi * df[col] / max_val)`. -/
noncomputable def cyclical_cos (f P : ℝ) : ℝ := Real.cos (2 * Real.pi * f / P)

/-- The function `np.arctan2 y x`: the argument of the point `(x, y)`. -/
noncomputable def atan2 (y x : ℝ) : ℝ := Complex.arg (↑x + ↑y * Complex.I)

/-- C7: for every periodic field value `f ∈ [0, P)` with period
`P ∈ {24, 12, 7}`, `atan2` applied to the emitted sin/cos pair recovers
`f` up to a multiple of `P`: the cyclical encoding is invertible on its
domain. -/
theorem cyclical_encoding_roundtrip (f P : ℝ)
    (hP : P = 24 ∨ P = 12 ∨ P = 7) (h0 : 0 ≤ f) (hf : f < P) :
    ∃ k : ℤ, atan2 (cyclical_sin f P) (cyclical_cos f P) * P / (2 * Real.pi)
      = f + k * P := by
  have hπ := Real.pi_pos
  have hPpos : (0 : ℝ) < P := by rcases hP with h | h | h <;> rw [h] <;> norm_num
  have hθ0 : 0 ≤ 2 * Real.pi * f / P :=
    div_nonneg (mul_nonneg (by positivity) h0) hPpos.le
  have hθlt : 2 * Real.pi * f / P < 2 * Real.pi := by
    rw [div_lt_iff₀ hPpos]
    calc 2 * Real.pi * f < 2 * Real.pi * P :=
          mul_lt_mul_of_pos_left hf (by positivity)
      _ = 2 * Real.pi * P := rfl
  have harg : atan2 (cyclical_sin f P) (cyclical_cos f P)
      = Complex.arg (Complex.cos ↑(2 * Real.pi * f / P)
          + Complex.sin ↑(2 * Real.pi * f / P) * Complex.I) := by
    rw [atan2, cyclical_sin, cyclical_cos, Complex.ofReal_cos, Complex.ofReal_sin]
  by_cases hmid : 2 * Real.pi * f / P ≤ Real.pi
  · refine ⟨0, ?_⟩
    rw [harg, Complex.arg_cos_add_sin_mul_I
      (show 2 * Real.pi * f / P ∈ Set.Ioc (-Real.pi) Real.pi from
        ⟨by linarith, hmid⟩)]
    field_simp
  · refine ⟨-1, ?_⟩
    have hcs : Complex.cos ↑(2 * Real.pi * f / P)
          + Complex.sin ↑(2 * Real.pi * f / P) * Complex.I
        = Complex.cos ↑(2 * Real.pi * f / P - 2 * Real.pi)
          + Complex.sin ↑(2 * Real.pi * f / P - 2 * Real.pi) * Complex.I := by
      rw [← Complex.ofReal_cos, ← Complex.ofReal_cos, ← Complex.ofReal_sin,
        ← Complex.ofReal_sin, Real.cos_sub_two_pi, Real.sin_sub_two_pi]
    rw [harg, hcs, Complex.arg_cos_add_sin_mul_I
      (show 2 * Real.pi * f / P - 2 * Real.pi ∈ Set.Ioc (-Real.pi) Real.pi from
        ⟨by linarith, by linarith⟩)]
    field_simp
    ring

/-- C7 witness: the encoding of hour `0` with period `24` decodes to `0`
modulo 24. -/
theorem cyclical_encoding_roundtrip_witness :
    ∃ k : ℤ, atan2 (cyclical_sin 0 24) (cyclical_cos 0 24) * 24 / (2 * Real.pi)
      = 0 + k * 24 :=
  cyclical_encoding_roundtrip 0 24 (Or.inl rfl) le_rfl (by norm_num)

/-! ### Claims about the schema boundaries -/

/-- C8: when any recorded fit-time feature name is absent from the table,
the detection run fails with `featureSchemaMismatch` — for every possible
prediction function, so before any prediction is computed — and nothing
is silently reordered or dropped. -/
theorem schema_mismatch_before_predict (names : List String) (g : List ℚ → ℚ)
    (t : FeatTable) (c : String) (hc : c ∈ names) (hmiss : c ∉ t.cols) :
    predictExpected ⟨names, g⟩ t = .error .featureSchemaMismatch := by
  have hall : names.all (fun c => t.cols.contains c) = false := by
    rw [← Bool.not_eq_true, List.all_eq_true]
    intro hforall
    exact hmiss (by simpa using hforall c hc)
  simp only [predictExpected, selectFeatures, hall, Bool.false_eq_true, if_false]
  rfl

/-- C8 witness: a table holding only `hour` fails the schema check for a
model fitted on `lag_1h`, whatever the model would predict. -/
theorem schema_mismatch_before_predict_witness :
    "lag_1h" ∈ (["lag_1h"] : List String)
    ∧ "lag_1h" ∉ (["hour"] : List String)
    ∧ predictExpected ⟨["lag_1h"], fun _ => 0⟩ ⟨["hour"], 1, fun _ _ => 0⟩
        = .error .featureSchemaMismatch :=
  ⟨by decide, by decide,
    schema_mismatch_before_predict ["lag_1h"] (fun _ => 0) ⟨["hour"], 1, fun _ _ => 0⟩
      "lag_1h" (by decide) (by decide)⟩

/-- C9: a merged table missing any of the required columns makes
`generate_features` abort with a `missingColumn` error naming an absent
column; no feature table is produced. -/
theorem missing_column_aborts (t : RawTable)
    (h : "timestamp" ∉ t.cols ∨ "building_id" ∉ t.cols ∨ "meter_reading" ∉ t.cols) :
    ∃ c, c ∉ t.cols ∧ generate_features t = .error (.missingColumn c) := by
  by_cases h1 : "timestamp" ∈ t.cols
  · by_cases h2 : "building_id" ∈ t.cols
    · by_cases h3 : "meter_reading" ∈ t.cols
      · rcases h with h | h | h <;> contradiction
      · exact ⟨_, h3, by
          simp [generate_features, requireColumn, h1, h2, h3, Bind.bind, Except.bind]⟩
    · exact ⟨_, h2, by
        simp [generate_features, requireColumn, h1, h2, Bind.bind, Except.bind,
          Functor.map, Except.map]⟩
  · exact ⟨_, h1, by
      simp [generate_features, requireColumn, h1, Bind.bind, Except.bind,
        Functor.map, Except.map]⟩

/-- C9 witness: a table lacking `timestamp` aborts with a missing-column
error. -/
theorem missing_column_aborts_witness :
    ("timestamp" : String) ∉ (["building_id", "meter_reading"] : List String)
    ∧ ∃ c, c ∉ (["building_id", "meter_reading"] : List String)
        ∧ generate_features ⟨["building_id", "meter_reading"], []⟩
            = .error (.missingColumn c) :=
  ⟨by decide, missing_column_aborts ⟨["building_id", "meter_reading"], []⟩
    (Or.inl (by decide))⟩

/-- C10: when the table's columns form a superset of the recorded feature
names, the run succeeds, the matrix handed to `predict` consists of
exactly the recorded names in recorded order, and any extra column is
ignored: two tables agreeing on the recorded names yield identical
predictions. -/
theorem superset_schema_accepted (names : List String) (g : List ℚ → ℚ)
    (t : FeatTable) (hsub : ∀ c ∈ names, c ∈ t.cols) :
    predictExpected ⟨names, g⟩ t
      = .ok (((List.range t.nrows).map (fun i => names.map (fun c => t.val i c))).map
          (fun row => g row))
    ∧ ∀ t' : FeatTable, t'.nrows = t.nrows → (∀ c ∈ names, c ∈ t'.cols) →
        (∀ i c, c ∈ names → t'.val i c = t.val i c) →
        predictExpected ⟨names, g⟩ t' = predictExpected ⟨names, g⟩ t := by
  have hok : ∀ s : FeatTable, (∀ c ∈ names, c ∈ s.cols) →
      selectFeatures s names
        = .ok ((List.range s.nrows).map (fun i => names.map (fun c => s.val i c))) := by
    intro s hs
    rw [selectFeatures, if_pos]
    rw [List.all_eq_true]
    intro c hc
    simpa using hs c hc
  constructor
  · simp [predictExpected, hok t hsub, Except.map, Function.comp, List.map_map]
  · intro t' hn hc hv
    have hmat : (List.range t'.nrows).map (fun i => names.map (fun c => t'.val i c))
        = (List.range t.nrows).map (fun i => names.map (fun c => t.val i c)) := by
      rw [hn]
      refine List.map_congr_left (fun i hi => ?_)
      exact List.map_congr_left (fun c hc' => hv i c hc')
    simp [predictExpected, hok t hsub, hok t' hc, hmat, Except.map]

/-- C10 witness: adding an extra `hour` column to a table leaves the
prediction run of a model fitted on `lag_1h` unchanged. -/
theorem superset_schema_accepted_witness :
    (∀ c ∈ (["lag_1h"] : List String), c ∈ (["lag_1h", "hour"] : List String))
    ∧ predictExpected ⟨["lag_1h"], fun _ => 0⟩ ⟨["lag_1h", "hour"], 1, fun _ _ => 7⟩
        = predictExpected ⟨["lag_1h"], fun _ => 0⟩ ⟨["lag_1h"], 1, fun _ _ => 7⟩ :=
  ⟨by decide,
    (superset_schema_accepted ["lag_1h"] (fun _ => 0) ⟨["lag_1h"], 1, fun _ _ => 7⟩
      (by decide)).2 ⟨["lag_1h", "hour"], 1, fun _ _ => 7⟩ rfl (by decide)
      (fun i c hc => rfl)⟩
